import Mathlib

/-!
Shallow embedding of the `array-rs` crate: a fixed-capacity, heap-backed
array built on a raw zero-initialized allocation, with a bounds check
`idx > cap` (so index `cap` is accepted), bounds-checked get/set/pop,
fill, count, deep clone, zip-based equality, a consuming iterator and
construction from a sequence.

Modelling choices:
* Machine memory is a total function `mem : Nat → T`; the array owns the
  slots `[0, cap)`.  The slot at index `cap` (one past the end of the
  allocation) is representable, which is needed because the source's
  bounds check accepts index `cap` and dereferences it; its content on a
  fresh allocation is arbitrary garbage, supplied as a parameter
  `g : Nat → T` at allocation sites.
* `usize` arithmetic is `Nat` with the explicit bound `USIZE_MAX = 2^64 - 1`
  (64-bit target); `checked_mul` fails above the bound.
* The allocator is parametrized by the element size `sizeT` and alignment
  `alignT` (Rust's `size_of::<T>()` / `align_of::<T>()`), and by a flag
  `platformNull` saying whether the platform allocator returns null.
  A successful result carries the layout that was passed to the platform
  call `alloc_zeroed`; an error return means the function bailed out
  before that call, i.e. no platform allocation was attempted.
* Rust's `&mut self` methods (`set`, `pop`) are modelled as functions
  returning a pair (result, updated array); the error branch of the
  source returns before any write, hence returns the array unchanged.
* A panic (`unwrap` / `expect` on an error) is modelled as `none` in an
  `Option`-valued result.
-/

namespace ArrayRs

/-- `usize::MAX` on a 64-bit target. -/
def USIZE_MAX : Nat := 2 ^ 64 - 1

/-- Embeds `error.rs`: `pub struct ArrayError { msg: String }`.
Equality of errors is equality of messages (`DecidableEq` on the one
field). -/
structure ArrayError where
  msg : String
deriving DecidableEq, Repr

/-- `ArrayError::new` (specialised to string messages; the source is
generic over `S: ToString`). -/
def ArrayError.new (msg : String) : ArrayError := ⟨msg⟩

/-- `ArrayError::matches`: message-based comparison. -/
def ArrayError.matchesMsg (e : ArrayError) (other : String) : Bool :=
  e.msg == other

/-- Rust's `usize::checked_mul`: `some` of the product when it fits in a
`usize`, `none` on overflow. -/
def checked_mul (a b : Nat) : Option Nat :=
  if a * b ≤ USIZE_MAX then some (a * b) else none

/-- `usize::is_power_of_two` (via the `n & (n-1)` trick). -/
def is_power_of_two (n : Nat) : Bool :=
  n != 0 && Nat.land n (n - 1) == 0

/-- `std::alloc::Layout`: the (size, align) pair describing an
allocation request. -/
structure Layout where
  size : Nat
  align : Nat
deriving DecidableEq, Repr

/-- `Layout::from_size_align`: the align must be a power of two and the
size must not overflow `usize` once rounded up to the alignment. -/
def Layout.from_size_align (size align : Nat) : Option Layout :=
  if is_power_of_two align && size ≤ USIZE_MAX - (align - 1) then
    some ⟨size, align⟩
  else
    none

/-- Embeds `array.rs`: `pub fn alloc<T>(len: usize)`.

`sizeT` and `alignT` stand for `size_of::<T>()` and `align_of::<T>()`;
`platformNull` says whether the platform call `alloc_zeroed` returns a
null pointer.  A successful result is the layout handed to
`alloc_zeroed`; every `.error` return happens before that call, so an
error means no platform allocation was attempted. -/
def alloc (sizeT alignT len : Nat) (platformNull : Bool) :
    Except ArrayError Layout :=
  match checked_mul sizeT len with
  | some 0 => .error (ArrayError.new "Cannot allocate zero sized value")
  | some n =>
    match Layout.from_size_align n alignT with
    | some layout =>
      if platformNull then
        .error (ArrayError.new "Failed to allocate memory for the Array")
      else
        .ok layout
    | none =>
      .error (ArrayError.new
        s!"Failed to create layout from (size: {n}, align: {alignT})")
  | none => .error (ArrayError.new "Overflow when getting layout size")

/-- Embeds `pub struct Array<T> { ptr: NonNull<T>, cap: usize }`.
The allocation behind `ptr` is modelled by the total function `mem`;
the array owns slots `[0, cap)`, and slot `cap` is the first slot past
the end of the allocation. -/
structure Array (T : Type) where
  mem : Nat → T
  cap : Nat

variable {T : Type}

/-- `Array::in_bounds`: returns `some` error iff `idx > cap`.  Note the
off-by-one: index `cap` is accepted. -/
def Array.in_bounds (a : Array T) (idx : Nat) : Option ArrayError :=
  if idx > a.cap then
    some (ArrayError.new "index out of range")
  else
    none

/-- `Array::new(size)`: allocates via `alloc`, zero-initialising the
`size` owned slots; `g` is the arbitrary content of the memory beyond
the allocation. -/
def Array.new (sizeT alignT : Nat) (platformNull : Bool) (g : Nat → T)
    [Zero T] (size : Nat) : Except ArrayError (Array T) :=
  match alloc sizeT alignT size platformNull with
  | .ok _ => .ok ⟨fun i => if i < size then 0 else g i, size⟩
  | .error e => .error e

/-- `Array::get(idx)`: bounds check, then a raw read at `ptr + idx`. -/
def Array.get (a : Array T) (idx : Nat) : Except ArrayError T :=
  match a.in_bounds idx with
  | some err => .error err
  | none => .ok (a.mem idx)

/-- `Array::set(idx, val)`: bounds check, then a raw write at
`ptr + idx`.  The pair's second component is the array after the call
(`&mut self`); the error branch returns before the write. -/
def Array.set (a : Array T) (idx : Nat) (val : T) :
    Except ArrayError Unit × Array T :=
  match a.in_bounds idx with
  | some err => (.error err, a)
  | none =>
    (.ok (), { a with mem := fun i => if i = idx then val else a.mem i })

/-- `Array::pop(idx)`: bounds check, read the value at `ptr + idx`,
then `write_bytes(0, 1)` zeroes that slot.  Zeroed bytes reread as `T`
are the zero value of `T`. -/
def Array.pop (a : Array T) [Zero T] (idx : Nat) :
    Except ArrayError T × Array T :=
  match a.in_bounds idx with
  | some err => (.error err, a)
  | none =>
    (.ok (a.mem idx),
      { a with mem := fun i => if i = idx then 0 else a.mem i })

/-- `Array::fill(with)`: writes `with` at every offset in `0..cap`.
No bounds check and no error path. -/
def Array.fill (a : Array T) (w : T) : Array T :=
  { a with mem := fun i => if i < a.cap then w else a.mem i }

/-- `Array::clone`: allocates a fresh region of the same capacity
(`g` is the garbage beyond the new allocation) and copies `cap`
elements from the source (`copy_from`).  The source's clone panics if
re-allocating the already-validated capacity fails; per the spec that
failure is a programming-logic violation outside the model, so the
model's clone always succeeds. -/
def Array.clone (a : Array T) (g : Nat → T) : Array T :=
  ⟨fun i => if i < a.cap then a.mem i else g i, a.cap⟩

/-- The sequence of the array's `cap` owned elements in index order.
`intoIter_collect` below proves this is exactly what the consuming
iterator yields. -/
def Array.toList (a : Array T) : List T :=
  (List.range a.cap).map a.mem

/-- `Array::count(val)`: `self.clone().into_iter().filter(|v| v == &val)
.collect::<Vec<T>>().len()` — clone (with garbage `g` beyond the new
allocation), iterate, keep the elements equal to `val`, return how many
remain.  The iterator's output is the clone's `toList`
(`intoIter_collect`). -/
def Array.count [DecidableEq T] (a : Array T) (val : T) (g : Nat → T) :
    Nat :=
  (((a.clone g).toList).filter (fun v => decide (v = val))).length

/-- `impl PartialEq for Array`: clone both sides (with garbage `g1`,
`g2` beyond the fresh allocations), zip the two consuming iterators and
require every paired `(s, o)` to satisfy `s == o`; `zip` stops at the
shorter sequence. -/
def Array.eqArr [DecidableEq T] (g1 g2 : Nat → T) (a b : Array T) :
    Bool :=
  (((a.clone g1).toList).zip ((b.clone g2).toList)).all
    (fun p => decide (p.1 = p.2))

/-- `pub struct ArrayIter<T> { arr: Array<T>, idx: usize }`. -/
structure ArrayIter (T : Type) where
  arr : Array T
  idx : Nat

/-- `impl IntoIterator for Array`: `ArrayIter::new(self)`, cursor 0. -/
def Array.intoIter (a : Array T) : ArrayIter T :=
  ⟨a, 0⟩

/-- `ArrayIter::next`: `None` when the cursor equals the capacity,
otherwise advance the cursor and return `get(idx - 1).unwrap()`.
The outer `Option` models the panic of that `unwrap`: `none` is a
panic, `some (none, it)` is iterator exhaustion, `some (some v, it)`
yields `v`. -/
def ArrayIter.next (it : ArrayIter T) :
    Option (Option T × ArrayIter T) :=
  if it.idx = it.arr.cap then
    some (none, it)
  else
    let it2 : ArrayIter T := { it with idx := it.idx + 1 }
    match it2.arr.get (it2.idx - 1) with
    | .ok v => some (some v, it2)
    | .error _ => none

/-- Drive `ArrayIter.next` for at most `fuel` steps, collecting the
yielded elements; stops early at exhaustion, propagates a panic as
`none`. -/
def runIter : ArrayIter T → Nat → Option (List T × ArrayIter T)
  | it, 0 => some ([], it)
  | it, fuel + 1 =>
    match it.next with
    | none => none
    | some (none, it2) => some ([], it2)
    | some (some v, it2) =>
      match runIter it2 fuel with
      | none => none
      | some (l, itf) => some (v :: l, itf)

/-- `impl<T, U: Iterator<Item=T>> From<U> for Array<T>`: collect the
sequence into a buffer `l`, allocate an array of capacity `l.length`
(`Self::new(v.len()).expect("")` — the `expect` panic is the outer
`none`), then `copy_from` the buffer's `l.length` elements into it. -/
def Array.fromIter [Zero T] (sizeT alignT : Nat) (platformNull : Bool)
    (g : Nat → T) (l : List T) : Option (Array T) :=
  match Array.new sizeT alignT platformNull g l.length with
  | .error _ => none
  | .ok arr =>
    some { arr with
      mem := fun i => if h : i < l.length then l.get ⟨i, h⟩ else arr.mem i }

/-! ## Helper lemmas -/

/-- `alloc` with `len = 0` always takes the zero-size error branch:
`size_of::<T>() * 0 = 0`, so `checked_mul` returns `Some(0)`. -/
theorem alloc_zero_len (sizeT alignT : Nat) (platformNull : Bool) :
    alloc sizeT alignT 0 platformNull =
      .error (ArrayError.new "Cannot allocate zero sized value") := by
  simp [alloc, checked_mul]

/-- `in_bounds` succeeds exactly on `idx ≤ cap`. -/
theorem in_bounds_none_iff (a : Array T) (idx : Nat) :
    a.in_bounds idx = none ↔ idx ≤ a.cap := by
  simp [Array.in_bounds, Nat.not_lt]

/-- A successfully constructed array has positive capacity: `alloc`
rejects the zero-size product, and `size * 0 = 0`. -/
theorem new_pos_cap [Zero T] (sizeT alignT : Nat) (platformNull : Bool)
    (g : Nat → T) (size : Nat) (b : Array T)
    (h : Array.new sizeT alignT platformNull g size = .ok b) :
    0 < b.cap := by
  rcases Nat.eq_zero_or_pos size with hs | hs
  · subst hs
    rw [Array.new, alloc_zero_len] at h
    cases h
  · rw [Array.new] at h
    cases halloc : alloc sizeT alignT size platformNull with
    | ok l => rw [halloc] at h; cases h; exact hs
    | error e => rw [halloc] at h; cases h

/-- `clone` preserves the owned contents, hence `toList`. -/
theorem toList_clone (a : Array T) (g : Nat → T) :
    (a.clone g).toList = a.toList := by
  unfold Array.toList Array.clone
  apply List.map_congr_left
  intro i hi
  simp only [List.mem_range] at hi
  simp [hi]

/-- A concrete two-element integer array used to instantiate theorems
with hypotheses. -/
def sampleInt : Array Int := ⟨fun _ => 0, 2⟩

/-! ## Claims -/

/-- C1: the bounds rule of `get`, `set` and `pop` accepts an index iff
it is not greater than the capacity: `in_bounds` succeeds exactly on
`idx ≤ cap`; `get (cap - 1)` succeeds (every constructed array has
positive capacity, `new_pos_cap`); `get cap`, `set cap v` and `pop cap`
pass the bounds check and are treated as in-bounds; every `idx > cap`
is rejected by all three. -/
theorem bounds_rule_off_by_one [Zero T] (a : Array T) (v : T) :
    (∀ idx, a.in_bounds idx = none ↔ idx ≤ a.cap)
    ∧ (0 < a.cap → (a.get (a.cap - 1)).isOk = true)
    ∧ (a.get a.cap).isOk = true
    ∧ ((a.set a.cap v).1).isOk = true
    ∧ ((a.pop a.cap).1).isOk = true
    ∧ (∀ idx, a.cap < idx →
        ((a.get idx).isOk = false ∧ ((a.set idx v).1).isOk = false
          ∧ ((a.pop idx).1).isOk = false)) := by
  have hcap : a.in_bounds a.cap = none :=
    (in_bounds_none_iff a _).2 (Nat.le_refl _)
  have hpred : a.in_bounds (a.cap - 1) = none :=
    (in_bounds_none_iff a _).2 (Nat.sub_le _ _)
  refine ⟨in_bounds_none_iff a, ?_, ?_, ?_, ?_, ?_⟩
  · intro _
    simp [Array.get, hpred, Except.isOk, Except.toBool]
  · simp [Array.get, hcap, Except.isOk, Except.toBool]
  · simp [Array.set, hcap, Except.isOk, Except.toBool]
  · simp [Array.pop, hcap, Except.isOk, Except.toBool]
  · intro idx h
    have hb : a.in_bounds idx = some (ArrayError.new "index out of range") := by
      simp [Array.in_bounds, h]
    exact ⟨by simp [Array.get, hb, Except.isOk, Except.toBool], by simp [Array.set, hb, Except.isOk, Except.toBool],
      by simp [Array.pop, hb, Except.isOk, Except.toBool]⟩

theorem bounds_rule_off_by_one_witness :
    (sampleInt.get (sampleInt.cap - 1)).isOk = true
    ∧ (sampleInt.get 3).isOk = false := by
  obtain ⟨-, h2, -, -, -, h6⟩ := bounds_rule_off_by_one sampleInt 7
  exact ⟨h2 (by decide), (h6 3 (by decide)).1⟩

/-- C2: `alloc` rejects a zero length with the zero-size error for
every element size, and rejects any length whose byte size overflows
`usize` with the overflow error; both are `.error` returns, which in
this model means the platform call `alloc_zeroed` was never reached. -/
theorem alloc_rejects_degenerate (sizeT alignT len : Nat)
    (platformNull : Bool) (hov : USIZE_MAX < sizeT * len) :
    alloc sizeT alignT 0 platformNull =
        .error (ArrayError.new "Cannot allocate zero sized value")
    ∧ alloc sizeT alignT len platformNull =
        .error (ArrayError.new "Overflow when getting layout size") := by
  refine ⟨alloc_zero_len _ _ _, ?_⟩
  have hmul : checked_mul sizeT len = none := by
    simp [checked_mul, Nat.not_le.2 hov]
  simp [alloc, hmul]

theorem alloc_rejects_degenerate_witness :
    USIZE_MAX < 8 * 2 ^ 61
    ∧ alloc 8 4 0 false =
        .error (ArrayError.new "Cannot allocate zero sized value")
    ∧ alloc 8 4 (2 ^ 61) false =
        .error (ArrayError.new "Overflow when getting layout size") := by
  have h := alloc_rejects_degenerate 8 4 (2 ^ 61) false (by decide)
  exact ⟨by decide, h.1, h.2⟩

/-- C6: for every index rejected by the bounds rule (`idx > cap`),
`get`, `set` and `pop` return the error with message
"index out of range" and return the array unchanged (the error branch
returns before any memory access, so contents and capacity are those
of the input array). -/
theorem out_of_range_atomic [Zero T] (a : Array T) (idx : Nat) (v : T)
    (h : a.cap < idx) :
    a.get idx = .error (ArrayError.new "index out of range")
    ∧ a.set idx v = (.error (ArrayError.new "index out of range"), a)
    ∧ a.pop idx = (.error (ArrayError.new "index out of range"), a) := by
  have hb : a.in_bounds idx = some (ArrayError.new "index out of range") := by
    simp [Array.in_bounds, h]
  exact ⟨by simp [Array.get, hb], by simp [Array.set, hb],
    by simp [Array.pop, hb]⟩

theorem out_of_range_atomic_witness :
    sampleInt.get 3 = .error (ArrayError.new "index out of range")
    ∧ sampleInt.set 3 5 = (.error (ArrayError.new "index out of range"), sampleInt)
    ∧ sampleInt.pop 3 = (.error (ArrayError.new "index out of range"), sampleInt) :=
  out_of_range_atomic sampleInt 3 5 (by decide)

/-- The array produced by `Array.new 4 4 false (fun _ => 7) 3`. -/
def sampleNew : Array Int := ⟨fun i => if i < 3 then 0 else 7, 3⟩

/-- A concrete three-element integer array holding 10, 11, 12. -/
def sampleVals : Array Int := ⟨fun i => (i : Int) + 10, 3⟩

/-- C3: zero-initialization — whenever `Array.new` succeeds, every
in-range index reads back the element type's zero value. -/
theorem new_zero_init [Zero T] (sizeT alignT : Nat) (platformNull : Bool)
    (g : Nat → T) (size : Nat) (a : Array T)
    (h : Array.new sizeT alignT platformNull g size = .ok a)
    (i : Nat) (hi : i < a.cap) :
    a.get i = .ok 0 := by
  rw [Array.new] at h
  cases halloc : alloc sizeT alignT size platformNull with
  | error e => rw [halloc] at h; cases h
  | ok l =>
    rw [halloc] at h
    cases h
    simp only [Array.cap] at hi
    have hle : ¬ (size < i) := Nat.not_lt.2 (Nat.le_of_lt hi)
    simp [Array.get, Array.in_bounds, hle, hi]

theorem new_zero_init_witness :
    sampleNew.get 1 = .ok 0 :=
  new_zero_init 4 4 false (fun _ => 7) 3 sampleNew rfl 1 (by decide)

/-- C4: round-trip — for every index accepted by the bounds rule
(`idx ≤ cap`), `set idx v` succeeds and a subsequent `get idx` on the
updated array returns `v`. -/
theorem set_get_roundtrip (a : Array T) (idx : Nat) (v : T)
    (h : idx ≤ a.cap) :
    (a.set idx v).1 = .ok () ∧ ((a.set idx v).2).get idx = .ok v := by
  have hb : a.in_bounds idx = none := (in_bounds_none_iff a idx).2 h
  constructor
  · simp [Array.set, hb]
  · simp [Array.set, hb, Array.get, Array.in_bounds, Nat.not_lt.2 h]

theorem set_get_roundtrip_witness :
    (sampleInt.set 1 9).1 = .ok () ∧ ((sampleInt.set 1 9).2).get 1 = .ok 9 :=
  set_get_roundtrip sampleInt 1 9 (by decide)

/-- C5: for every index accepted by the bounds rule, `pop idx` returns
the value previously stored at `idx`, the updated array reads zero at
`idx`, every other slot is unchanged, and the capacity is unchanged. -/
theorem pop_returns_and_zeroes [Zero T] (a : Array T) (idx : Nat)
    (h : idx ≤ a.cap) :
    (a.pop idx).1 = .ok (a.mem idx)
    ∧ ((a.pop idx).2).get idx = .ok 0
    ∧ (∀ j, j ≠ idx → ((a.pop idx).2).mem j = a.mem j)
    ∧ ((a.pop idx).2).cap = a.cap := by
  have hb : a.in_bounds idx = none := (in_bounds_none_iff a idx).2 h
  refine ⟨by simp [Array.pop, hb], ?_, ?_, by simp [Array.pop, hb]⟩
  · simp [Array.pop, hb, Array.get, Array.in_bounds, Nat.not_lt.2 h]
  · intro j hj
    simp [Array.pop, hb, hj]

theorem pop_returns_and_zeroes_witness :
    (sampleVals.pop 1).1 = .ok (sampleVals.mem 1)
    ∧ ((sampleVals.pop 1).2).get 1 = .ok 0
    ∧ ((sampleVals.pop 1).2).mem 0 = sampleVals.mem 0
    ∧ ((sampleVals.pop 1).2).cap = sampleVals.cap := by
  obtain ⟨h1, h2, h3, h4⟩ := pop_returns_and_zeroes sampleVals 1 (by decide)
  exact ⟨h1, h2, h3 0 (by decide), h4⟩

/-- Once the cursor equals the capacity, the iterator keeps returning
`none` with an unchanged state, for any number of further steps. -/
theorem runIter_done (a : Array T) (m : Nat) :
    runIter (⟨a, a.cap⟩ : ArrayIter T) m = some ([], ⟨a, a.cap⟩) := by
  cases m with
  | zero => rfl
  | succ n => simp [runIter, ArrayIter.next]

/-- Driving the iterator from cursor `j` with `j + n = cap` yields the
elements at indices `j, j+1, …, cap-1` in order and lands on the
exhausted state, given fuel at least `n`. -/
theorem runIter_range (a : Array T) :
    ∀ n j k : Nat, j + n = a.cap →
      runIter (⟨a, j⟩ : ArrayIter T) (n + k) =
        some ((List.range' j n).map a.mem, ⟨a, a.cap⟩) := by
  intro n
  induction n with
  | zero =>
    intro j k h
    have hj : j = a.cap := by omega
    subst hj
    simp [runIter_done, List.range']
  | succ n ih =>
    intro j k h
    have hj : j < a.cap := by omega
    have hne : j ≠ a.cap := Nat.ne_of_lt hj
    have hnext : (⟨a, j⟩ : ArrayIter T).next =
        some (some (a.mem j), ⟨a, j + 1⟩) := by
      simp [ArrayIter.next, hne, Array.get, Array.in_bounds,
        Nat.not_lt.2 (Nat.le_of_lt hj)]
    have hfuel : n + 1 + k = (n + k) + 1 := by omega
    rw [hfuel, runIter, hnext]
    dsimp only
    rw [ih (j + 1) k (by omega), List.range'_succ j n 1]
    simp

/-- The consuming iterator, given fuel `cap + k`, collects exactly
`toList` and ends in the exhausted state `⟨a, cap⟩`. -/
theorem intoIter_collect (a : Array T) (k : Nat) :
    runIter a.intoIter (a.cap + k) = some (a.toList, ⟨a, a.cap⟩) := by
  have h := runIter_range a a.cap 0 k (by omega)
  rw [Array.toList, List.range_eq_range' a.cap]
  exact h

/-- `toList` indexes back to `mem` below the capacity and to nothing
above it. -/
theorem toList_getElem (a : Array T) (i : Nat) :
    a.toList[i]? = if i < a.cap then some (a.mem i) else none := by
  by_cases h : i < a.cap
  · rw [if_pos h]
    simp [Array.toList, List.getElem?_map, List.getElem?_range h]
  · rw [if_neg h]
    refine List.getElem?_eq_none ?_
    simp [Array.toList]
    omega

/-- C8: consuming iteration yields exactly `cap` elements — the
elements at indices `0, 1, …, cap-1` in order, each one equal to the
result of the bounds-checked read `get` — and once the cursor reaches
`cap` every further step returns `none` with an unchanged state. -/
theorem consuming_iteration_spec (a : Array T) (k : Nat) :
    runIter a.intoIter (a.cap + k) = some (a.toList, ⟨a, a.cap⟩)
    ∧ a.toList.length = a.cap
    ∧ (∀ i, i < a.cap →
        (a.toList[i]? = some (a.mem i) ∧ a.get i = .ok (a.mem i)))
    ∧ (∀ m, runIter (⟨a, a.cap⟩ : ArrayIter T) m = some ([], ⟨a, a.cap⟩)) := by
  refine ⟨intoIter_collect a k, by simp [Array.toList], ?_, runIter_done a⟩
  intro i hi
  refine ⟨by rw [toList_getElem, if_pos hi], ?_⟩
  simp [Array.get, Array.in_bounds, Nat.not_lt.2 (Nat.le_of_lt hi)]

theorem consuming_iteration_spec_witness :
    runIter sampleVals.intoIter (sampleVals.cap + 1) =
      some (sampleVals.toList, ⟨sampleVals, sampleVals.cap⟩)
    ∧ sampleVals.toList[1]? = some (sampleVals.mem 1) := by
  obtain ⟨h1, -, h3, -⟩ := consuming_iteration_spec sampleVals 1
  exact ⟨h1, (h3 1 (by decide)).1⟩

/-- `all` over a zip holds iff the predicate holds at every position
present in both lists. -/
theorem all_zip_iff {α β : Type} (p : α × β → Bool) :
    ∀ (l1 : List α) (l2 : List β),
      ((l1.zip l2).all p = true ↔
        ∀ (i : Nat) (x : α) (y : β),
          l1[i]? = some x → l2[i]? = some y → p (x, y) = true) := by
  intro l1
  induction l1 with
  | nil =>
    intro l2
    simp
  | cons x xs ih =>
    intro l2
    cases l2 with
    | nil => simp
    | cons y ys =>
      simp only [List.zip_cons_cons, List.all_cons, Bool.and_eq_true, ih]
      constructor
      · rintro ⟨hp, hrest⟩ i u v hu hv
        cases i with
        | zero =>
          simp only [List.getElem?_cons_zero, Option.some.injEq] at hu hv
          rw [← hu, ← hv]
          exact hp
        | succ n =>
          exact hrest n u v (by simpa using hu) (by simpa using hv)
      · intro h
        exact ⟨h 0 x y (by simp) (by simp),
          fun n u v hu hv => h (n + 1) u v (by simpa using hu) (by simpa using hv)⟩

/-- C7: the zip-based equality holds iff every pair of elements at
corresponding positions up to the shorter of the two capacities is
equal; a capacity mismatch alone never makes two arrays unequal, since
`zip` drops the longer array's tail. -/
theorem eq_upto_shorter_capacity [DecidableEq T] (g1 g2 : Nat → T)
    (a b : Array T) :
    Array.eqArr g1 g2 a b = true ↔
      ∀ i, i < min a.cap b.cap → a.mem i = b.mem i := by
  unfold Array.eqArr
  rw [toList_clone, toList_clone,
    all_zip_iff (fun p => decide (p.1 = p.2)) a.toList b.toList]
  constructor
  · intro h i hi
    have ha : a.toList[i]? = some (a.mem i) := by
      rw [toList_getElem, if_pos (by omega)]
    have hb : b.toList[i]? = some (b.mem i) := by
      rw [toList_getElem, if_pos (by omega)]
    simpa using h i (a.mem i) (b.mem i) ha hb
  · intro h i x y hx hy
    rw [toList_getElem] at hx hy
    rcases Nat.lt_or_ge i a.cap with hia | hia
    · rcases Nat.lt_or_ge i b.cap with hib | hib
      · rw [if_pos hia] at hx
        rw [if_pos hib] at hy
        injection hx with hx
        injection hy with hy
        subst hx
        subst hy
        simpa using h i (by omega)
      · rw [if_neg (Nat.not_lt.2 hib)] at hy
        cases hy
    · rw [if_neg (Nat.not_lt.2 hia)] at hx
      cases hx

theorem eq_upto_shorter_capacity_witness :
    Array.eqArr (fun _ => (0 : Int)) (fun _ => 0) sampleInt
      ⟨fun _ => 0, 5⟩ = true :=
  (eq_upto_shorter_capacity (fun _ => (0 : Int)) (fun _ => 0) sampleInt
    ⟨fun _ => 0, 5⟩).2 (fun _ _ => rfl)

/-- `fill` turns the owned contents into `cap` copies of the value. -/
theorem fill_toList (a : Array T) (v : T) :
    (a.fill v).toList = List.replicate a.cap v := by
  refine List.eq_replicate_iff.2 ⟨by simp [Array.toList, Array.fill], ?_⟩
  intro b hb
  simp only [Array.toList, Array.fill, List.mem_map, List.mem_range] at hb
  obtain ⟨i, hi, hbi⟩ := hb
  rw [← hbi]
  simp [hi]

/-- C9: `fill v` overwrites every slot in `[0, cap)` with `v` (it has
no error path — it returns the array directly), and a subsequent
`count v` returns the capacity. -/
theorem fill_then_count [DecidableEq T] (a : Array T) (v : T)
    (g : Nat → T) :
    (∀ i, i < a.cap → (a.fill v).mem i = v)
    ∧ (a.fill v).count v g = a.cap := by
  constructor
  · intro i hi
    simp [Array.fill, hi]
  · unfold Array.count
    rw [toList_clone, fill_toList,
      List.filter_eq_self.2 (fun x hx => by
        rw [List.eq_of_mem_replicate hx]
        simp),
      List.length_replicate]

theorem fill_then_count_witness :
    ((sampleVals.fill 4).count 4 fun _ => 0) = sampleVals.cap ∧
      (sampleVals.fill 4).mem 2 = 4 := by
  obtain ⟨h1, h2⟩ := fill_then_count sampleVals 4 (fun _ => 0)
  exact ⟨h2, h1 2 (by decide)⟩

/-- C10: building an array from an empty sequence determines capacity
0, `alloc` rejects the zero-sized layout before any platform call, and
the `expect` on that error is a panic (`none`) — never a returned
array or a recoverable error. -/
theorem from_empty_iter_panics [Zero T] (sizeT alignT : Nat)
    (platformNull : Bool) (g : Nat → T) :
    Array.fromIter sizeT alignT platformNull g ([] : List T) = none
    ∧ alloc sizeT alignT 0 platformNull =
        .error (ArrayError.new "Cannot allocate zero sized value") := by
  refine ⟨?_, alloc_zero_len _ _ _⟩
  have h : Array.new sizeT alignT platformNull g 0 =
      (.error (ArrayError.new "Cannot allocate zero sized value") :
        Except ArrayError (Array T)) := by
    rw [Array.new, alloc_zero_len]
  simp [Array.fromIter, h]

theorem from_empty_iter_panics_witness :
    Array.fromIter 4 4 false (fun _ => (0 : Int)) ([] : List Int) = none :=
  (from_empty_iter_panics 4 4 false (fun _ => (0 : Int))).1

end ArrayRs
